import Mathlib

/-!
Verification of the connection-lifecycle and routing engine of the
team-collaboration WebSocket gateway (src/server.js, src/socketHandlers.js,
and the auth module).  Times are milliseconds as `Int` (JS `Date.now()`
arithmetic is exact integer subtraction on these values); counters are `Int`
because the source clamps them with `Math.max(0, ...)`.
-/

namespace TeamApp

/-! ## Admission control (src/server.js lines 24-102) -/

def MAX_CONNECTIONS_PER_IP : Int := 10
def MAX_CONNECTIONS_LOCALHOST : Int := 20
def CONNECTION_WINDOW : Int := 60000
def CONNECTION_COOLDOWN : Int := 2000
def CONNECTION_COOLDOWN_LOCALHOST : Int := 500
def EXPIRED_TOKEN_COOLDOWN : Int := 1000

/-- The per-IP record stored in the `connectionAttempts` map:
`{ count, lastAttempt, isLocalhost, expiredTokenAttempts }`. -/
structure Attempts where
  count : Int
  lastAttempt : Int
  isLocalhost : Bool
  expiredTokenAttempts : Int
deriving DecidableEq

/-- Classification of a source address as localhost (src/server.js line 37). -/
def isLocalhostIP (ip : String) : Bool :=
  ip == "127.0.0.1" || ip == "::1" || ip == "::ffff:127.0.0.1" || ip == "localhost"

/-- In the source, `attempts` is the live object from the map when the record
exists, so in-place mutations persist even on a denial path; a fresh default
object is only stored by an explicit `set` on the success path. -/
def persistIfStored (stored : Option Attempts) (a : Attempts) : Option Attempts :=
  match stored with
  | some _ => some a
  | none => none

/-- `checkConnectionRateLimit(ip, isExpiredToken)` from src/server.js lines
35-92, as a function of the stored record for `ip` (`none` when the map has
no entry), the current time, and the expired-token flag.  Returns the boolean
decision and the record left in the map afterwards. -/
def checkConnectionRateLimit (stored : Option Attempts) (ip : String) (now : Int)
    (isExpiredToken : Bool) : Bool × Option Attempts :=
  let isLocal := isLocalhostIP ip
  let attempts0 := stored.getD
    { count := 0, lastAttempt := 0, isLocalhost := isLocal, expiredTokenAttempts := 0 }
  let attempts1 := { attempts0 with isLocalhost := isLocal }
  let attempts2 :=
    if now - attempts1.lastAttempt > CONNECTION_WINDOW then
      { attempts1 with count := 0, expiredTokenAttempts := 0 }
    else attempts1
  if isExpiredToken then
    let a3 := { attempts2 with expiredTokenAttempts := attempts2.expiredTokenAttempts + 1 }
    let maxExpiredAttempts : Int := if isLocal then 50 else 10
    if a3.expiredTokenAttempts > maxExpiredAttempts then
      (false, persistIfStored stored a3)
    else
      let expiredCooldown := if isLocal then EXPIRED_TOKEN_COOLDOWN else EXPIRED_TOKEN_COOLDOWN * 2
      if now - a3.lastAttempt < expiredCooldown then
        (false, persistIfStored stored a3)
      else
        (true, some { a3 with lastAttempt := now })
  else
    let maxConnections := if isLocal then MAX_CONNECTIONS_LOCALHOST else MAX_CONNECTIONS_PER_IP
    if attempts2.count ≥ maxConnections then
      (false, persistIfStored stored attempts2)
    else
      let cooldown := if isLocal then CONNECTION_COOLDOWN_LOCALHOST else CONNECTION_COOLDOWN
      if now - attempts2.lastAttempt < cooldown then
        (false, persistIfStored stored attempts2)
      else
        (true, some { attempts2 with count := attempts2.count + 1, lastAttempt := now })

/-- The spec's wording of the general-path decision algorithm (spec section 4.3),
stated over the same record shape, with `windowStart` read as the record's
single timestamp (the implementation keeps one timestamp serving both roles). -/
def specAdmissionGeneral (rec : Attempts) (trustedLocal : Bool) (now : Int) :
    Bool × Attempts :=
  let rec1 :=
    if now - rec.lastAttempt > CONNECTION_WINDOW then
      { rec with count := 0, expiredTokenAttempts := 0 }
    else rec
  let ceiling : Int := if trustedLocal then MAX_CONNECTIONS_LOCALHOST else MAX_CONNECTIONS_PER_IP
  let cooldown : Int := if trustedLocal then CONNECTION_COOLDOWN_LOCALHOST else CONNECTION_COOLDOWN
  if rec1.count ≥ ceiling then (false, rec1)
  else if now - rec1.lastAttempt < cooldown then (false, rec1)
  else (true, { rec1 with count := rec1.count + 1, lastAttempt := now })

/-- Run a sequence of general-path admission attempts at the given times,
collecting the decisions. -/
def runGeneralAttempts (stored : Option Attempts) (ip : String) (times : List Int) :
    Option Attempts × List Bool :=
  times.foldl
    (fun acc t =>
      let r := checkConnectionRateLimit acc.1 ip t false
      (r.2, acc.2 ++ [r.1]))
    (stored, [])

/-- The decrement applied to the stored record when a socket from this IP
disconnects (src/server.js lines 499-511): the general counter is lowered by
one when positive, clamped at zero with `Math.max`, and the expired-token
counter likewise when the connection had been an expired-token attempt.
A missing record is left missing. -/
def disconnectAttempts (stored : Option Attempts) (wasExpiredTokenAttempt : Bool) :
    Option Attempts :=
  match stored with
  | none => none
  | some a =>
    let a1 := if a.count > 0 then { a with count := max 0 (a.count - 1) } else a
    let a2 :=
      if wasExpiredTokenAttempt ∧ a1.expiredTokenAttempts > 0 then
        { a1 with expiredTokenAttempts := max 0 (a1.expiredTokenAttempts - 1) }
      else a1
    some a2

/-! ## Token verification (auth module, first `verifyToken`) -/

/-- Named JWT error conditions raised or re-raised by `verifyToken`. -/
inductive TokenErr where
  | invalidTokenType
  | missingFields
  | tokenExpired
  | jsonWebToken
  | notBefore
deriving DecidableEq

/-- The decoded JWT payload fields `verifyToken` inspects.  `none` models an
absent field; JS truthiness of a present string additionally requires it to
be nonempty. -/
structure JwtPayload where
  type : Option String
  user_id : Option String
  email : Option String
  role : Option String
  username : Option String
  exp : Int
  iat : Int
deriving DecidableEq

/-- Outcome of `jwt.verify` on the cleaned token: a decoded payload, or one of
the library's error conditions (TokenExpiredError, JsonWebTokenError,
NotBeforeError). -/
inductive JwtVerifyResult where
  | ok (payload : JwtPayload)
  | expired
  | malformed
  | notActive
deriving DecidableEq

/-- JS truthiness of an optional string field. -/
def truthy : Option String → Bool
  | none => false
  | some s => s != ""

/-- The user object `verifyToken` returns on success. -/
structure AuthUser where
  email : String
  userId : String
  role : String
  username : String
  exp : Int
  iat : Int
deriving DecidableEq

/-- `verifyToken` (auth module lines 14-87) for a nonempty token, as a function
of the `jwt.verify` outcome: library errors are re-raised under their names;
a decoded payload whose `type` is not the string `access` raises
`InvalidTokenType`; missing `user_id`/`email` raises `MissingFields`;
otherwise the user object is built with `role` defaulting to `member`. -/
def verifyToken (res : JwtVerifyResult) : Except TokenErr AuthUser :=
  match res with
  | .expired => .error .tokenExpired
  | .malformed => .error .jsonWebToken
  | .notActive => .error .notBefore
  | .ok d =>
    if d.type ≠ some "access" then .error .invalidTokenType
    else if ¬ (truthy d.user_id = true ∧ truthy d.email = true) then .error .missingFields
    else .ok
      { email := d.email.getD ""
        userId := d.user_id.getD ""
        role := if truthy d.role then d.role.getD "" else "member"
        username := if truthy d.username then d.username.getD "" else d.email.getD ""
        exp := d.exp
        iat := d.iat }

/-- src/server.js line 403 classifies a thrown verification error as a token
expiry by testing whether its message contains the word expired; of the five
error conditions only TokenExpiredError (message: Token has expired) does. -/
def errIsExpired : TokenErr → Bool
  | .tokenExpired => true
  | _ => false

/-! ## Connect-time and refresh-time authentication branching (src/server.js) -/

/-- The three verification outcomes the connection handler distinguishes for a
supplied token: success, an expired-token error, or any other error. -/
inductive VerifyOutcome where
  | ok
  | errExpired
  | errOther
deriving DecidableEq

def errToOutcome (e : TokenErr) : VerifyOutcome :=
  if errIsExpired e then .errExpired else .errOther

/-- Observable result of one authentication branch: which admission variant was
consulted (`none` when admission is never consulted; `some b` with `b` the
`isExpiredToken` flag), whether it denied, whether the socket ends up
authenticated, whether it is disconnected in the handler itself, and the delay
of any guarded disconnect timer the branch schedules. -/
structure BranchResult where
  admissionPath : Option Bool
  admissionDenied : Bool
  authenticated : Bool
  closedNow : Bool
  timerDelayMs : Option Int
deriving DecidableEq

/-- Connect-time handling of a supplied credential (src/server.js lines
309-454): success consults normal admission then authenticates (denial
notifies and disconnects); an expired-token error consults the expired-token
admission variant then leaves a 5-second guarded re-auth window; any other
error consults normal admission then disconnects immediately. -/
def connectBranch (o : VerifyOutcome) (stored : Option Attempts) (ip : String)
    (now : Int) : BranchResult × Option Attempts :=
  match o with
  | .ok =>
    let r := checkConnectionRateLimit stored ip now false
    if r.1 then
      ({ admissionPath := some false, admissionDenied := false, authenticated := true,
         closedNow := false, timerDelayMs := none }, r.2)
    else
      ({ admissionPath := some false, admissionDenied := true, authenticated := false,
         closedNow := true, timerDelayMs := none }, r.2)
  | .errExpired =>
    let r := checkConnectionRateLimit stored ip now true
    if r.1 then
      ({ admissionPath := some true, admissionDenied := false, authenticated := false,
         closedNow := false, timerDelayMs := some 5000 }, r.2)
    else
      ({ admissionPath := some true, admissionDenied := true, authenticated := false,
         closedNow := true, timerDelayMs := none }, r.2)
  | .errOther =>
    let r := checkConnectionRateLimit stored ip now false
    if r.1 then
      ({ admissionPath := some false, admissionDenied := false, authenticated := false,
         closedNow := true, timerDelayMs := none }, r.2)
    else
      ({ admissionPath := some false, admissionDenied := true, authenticated := false,
         closedNow := true, timerDelayMs := none }, r.2)

/-- The `refresh_token` handler's treatment of a supplied token (src/server.js
lines 525-615): verification success authenticates the socket; an expired or
other verification error only emits an authentication error.  No admission
check is performed on any path, no state is stored, the socket is never
disconnected, and no timer is scheduled. -/
def refreshBranch (o : VerifyOutcome) : BranchResult :=
  match o with
  | .ok =>
    { admissionPath := none, admissionDenied := false, authenticated := true,
      closedNow := false, timerDelayMs := none }
  | .errExpired =>
    { admissionPath := none, admissionDenied := false, authenticated := false,
      closedNow := false, timerDelayMs := none }
  | .errOther =>
    { admissionPath := none, admissionDenied := false, authenticated := false,
      closedNow := false, timerDelayMs := none }

/-! ## No-credential connections and the grace timer (src/server.js 455-482) -/

/-- Observable result of the no-token connect branch. -/
structure NoTokenResult where
  emitsAuthRequired : Bool
  emitsRateLimit : Bool
  closedNow : Bool
  graceDelayMs : Option Int
deriving DecidableEq

/-- Handling of a connection that supplies no credential: the normal admission
variant is consulted; denial notifies a rate limit and disconnects at once;
otherwise an authentication-required notice is emitted and a 10-second guarded
disconnect timer is scheduled. -/
def noTokenConnect (stored : Option Attempts) (ip : String) (now : Int) :
    NoTokenResult × Option Attempts :=
  let r := checkConnectionRateLimit stored ip now false
  if r.1 then
    ({ emitsAuthRequired := true, emitsRateLimit := false, closedNow := false,
       graceDelayMs := some 10000 }, r.2)
  else
    ({ emitsAuthRequired := false, emitsRateLimit := true, closedNow := true,
       graceDelayMs := none }, r.2)

/-- The guard the grace timer runs when it fires: the socket is force-closed
exactly when it is still unauthenticated (`if (!socket.authenticated)
socket.disconnect(true)`); firing on an authenticated socket is a no-op. -/
def graceTimerFire (authenticated : Bool) : Bool :=
  !authenticated

/-! ## Sockets, rooms and the broadcast router (src/socketHandlers.js) -/

/-- A transport room.  The source encodes rooms as strings: the socket's own
id, `team:{teamId}` scopes, and `project_{projectId}` rooms; the constructors
mirror those three disjoint shapes (the prefixed encodings are injective, and
the `startsWith('project_')` test corresponds to the `project` constructor). -/
inductive Room where
  | selfRoom (sid : String)
  | team (tid : String)
  | project (pid : String)
deriving DecidableEq

def Room.isProjectRoom : Room → Bool
  | .project _ => true
  | _ => false

/-- The `room.replace('project_', '')` extraction, total on project rooms. -/
def Room.projectOf : Room → String
  | .project p => p
  | .selfRoom s => s
  | .team t => t

/-- One live socket as the handlers see it. -/
structure Socket where
  sid : String
  authenticated : Bool
  userId : String
  userRole : String
  rooms : List Room
deriving DecidableEq

/-- Payload fields of a `task_created`/`task_updated` event; `none` models an
absent (falsy) field, and `assigneeId` is `taskData?.assigneeId`. -/
structure TaskEventData where
  taskId : Option String
  projectId : Option String
  hasTaskData : Bool
  assigneeId : Option String
deriving DecidableEq

/-- `getProjectTeamId` (src/socketHandlers.js lines 15-41): any request error
yields `null`, and a response carries `response.data?.team_id || null`, so a
missing or zero `team_id` also yields `null`. -/
def getProjectTeamId (resp : Except String (Option Int)) : Option Int :=
  match resp with
  | .error _ => none
  | .ok none => none
  | .ok (some t) => if t = 0 then none else some t

/-- Emissions of the `task_updated` handler (src/socketHandlers.js lines
158-226) as `(target socket id, event name)` pairs, given the resolved team id
(`none` when resolution failed) and the server's socket collection.  A member
sender naming an assignee emits to the assignee's authenticated sockets plus
the sender; otherwise the event goes to every socket in the team room. -/
def taskUpdatedEmits (sender : Socket) (data : TaskEventData) (teamId : Option String)
    (allSockets : List Socket) : List (String × String) :=
  if sender.authenticated = false then [(sender.sid, "error")]
  else if truthy data.taskId = false ∨ truthy data.projectId = false then
    [(sender.sid, "error")]
  else
    match teamId with
    | none => []
    | some t =>
      if sender.userRole == "member" && truthy data.assigneeId then
        ((allSockets.filter (fun s => s.authenticated && some s.userId == data.assigneeId)).map
          (fun s => (s.sid, "task_updated"))) ++ [(sender.sid, "task_updated")]
      else
        (allSockets.filter (fun s => Room.team t ∈ s.rooms)).map
          (fun s => (s.sid, "task_updated"))

/-- Emissions of the `task_created` handler (src/socketHandlers.js lines
229-296); identical delivery logic, with `taskData` additionally required. -/
def taskCreatedEmits (sender : Socket) (data : TaskEventData) (teamId : Option String)
    (allSockets : List Socket) : List (String × String) :=
  if sender.authenticated = false then [(sender.sid, "error")]
  else if truthy data.taskId = false ∨ truthy data.projectId = false ∨
      data.hasTaskData = false then
    [(sender.sid, "error")]
  else
    match teamId with
    | none => []
    | some t =>
      if sender.userRole == "member" && truthy data.assigneeId then
        ((allSockets.filter (fun s => s.authenticated && some s.userId == data.assigneeId)).map
          (fun s => (s.sid, "task_created"))) ++ [(sender.sid, "task_created")]
      else
        (allSockets.filter (fun s => Room.team t ∈ s.rooms)).map
          (fun s => (s.sid, "task_created"))

/-- Emissions of the `task_deleted` handler (src/socketHandlers.js lines
299-358): both role branches broadcast to the whole team room. -/
def taskDeletedEmits (sender : Socket) (taskId projectId : Option String)
    (teamId : Option String) (allSockets : List Socket) : List (String × String) :=
  if sender.authenticated = false then [(sender.sid, "error")]
  else if truthy taskId = false ∨ truthy projectId = false then [(sender.sid, "error")]
  else
    match teamId with
    | none => []
    | some t =>
      (allSockets.filter (fun s => Room.team t ∈ s.rooms)).map
        (fun s => (s.sid, "task_deleted"))

/-- Emissions of the `project_updated` handler (src/socketHandlers.js lines
408-456): broadcast to the whole team room. -/
def projectUpdatedEmits (sender : Socket) (projectId : Option String)
    (teamId : Option String) (allSockets : List Socket) : List (String × String) :=
  if sender.authenticated = false then [(sender.sid, "error")]
  else if truthy projectId = false then [(sender.sid, "error")]
  else
    match teamId with
    | none => []
    | some t =>
      (allSockets.filter (fun s => Room.team t ∈ s.rooms)).map
        (fun s => (s.sid, "project_updated"))

/-- Emissions of the `user_typing` handler (src/socketHandlers.js lines
361-382): `socket.to('project_' + projectId)` reaches every socket in the room
named by the payload except the sender; unauthenticated senders and falsy
project ids are dropped silently. -/
def userTypingEmits (sender : Socket) (projectId : Option String)
    (allSockets : List Socket) : List (String × String) :=
  if sender.authenticated = false then []
  else
    match projectId with
    | none => []
    | some p =>
      if p = "" then []
      else
        (allSockets.filter (fun s => Room.project p ∈ s.rooms && s.sid != sender.sid)).map
          (fun s => (s.sid, "typing_indicator"))

/-- Emissions of the `cursor_position` handler (src/socketHandlers.js lines
385-405): same fan-out as typing, with `position` additionally required. -/
def cursorPositionEmits (sender : Socket) (projectId : Option String)
    (hasPosition : Bool) (allSockets : List Socket) : List (String × String) :=
  if sender.authenticated = false then []
  else
    match projectId with
    | none => []
    | some p =>
      if p = "" ∨ hasPosition = false then []
      else
        (allSockets.filter (fun s => Room.project p ∈ s.rooms && s.sid != sender.sid)).map
          (fun s => (s.sid, "user_cursor"))

/-! ## Presence registry (src/socketHandlers.js maps and handlers) -/

/-- The registry state: live sockets, `activeRooms : projectId -> userIds` and
`userSockets : userId -> socketIds`, with the JS `Set` values as
duplicate-free lists. -/
structure Registry where
  conns : List Socket
  activeRooms : List (String × List String)
  userSockets : List (String × List String)
deriving DecidableEq

/-- `activeRooms.get(projectId).add(userId)`, creating the entry when absent
(src/socketHandlers.js lines 101-105). -/
def roomsAdd (ar : List (String × List String)) (p u : String) :
    List (String × List String) :=
  if ar.any (fun e => e.1 = p) then
    ar.map (fun e => if e.1 = p then (e.1, if u ∈ e.2 then e.2 else e.2 ++ [u]) else e)
  else
    ar ++ [(p, [u])]

/-- `removeUserFromRoom` (src/socketHandlers.js lines 522-531): delete the user
from the named room's set and drop the entry when it becomes empty. -/
def removeUserFromRoom (ar : List (String × List String)) (p u : String) :
    List (String × List String) :=
  (ar.map (fun e => if e.1 = p then (e.1, e.2.erase u) else e)).filter
    (fun e => !(e.1 = p ∧ e.2 = []))

/-- The disconnect handler's sweep (src/socketHandlers.js lines 463-480):
delete the user from every room's set, with no empty-entry cleanup. -/
def roomsDeleteUser (ar : List (String × List String)) (u : String) :
    List (String × List String) :=
  ar.map (fun e => (e.1, e.2.erase u))

/-- Removal of a socket id from `userSockets` on disconnect
(src/socketHandlers.js lines 483-489), deleting the key when its set empties. -/
def userSocketsRemove (us : List (String × List String)) (u sid : String) :
    List (String × List String) :=
  (us.map (fun e => if e.1 = u then (e.1, e.2.erase sid) else e)).filter
    (fun e => !(e.1 = u ∧ e.2 = []))

/-- Update the socket with the given id in place. -/
def updateConn (conns : List Socket) (sid : String) (f : Socket → Socket) :
    List Socket :=
  conns.map (fun c => if c.sid = sid then f c else c)

/-- The `join_project` handler (src/socketHandlers.js lines 68-124):
unauthenticated callers and falsy project ids are rejected with an error and
no mutation; otherwise the socket leaves every previously joined project room
(removing the user from those rooms' sets), joins `project_{projectId}` and is
added to that room's set. -/
def joinProjectOp (r : Registry) (sid pid : String) : Registry :=
  match r.conns.find? (fun c => c.sid = sid) with
  | none => r
  | some c =>
    if c.authenticated = false then r
    else if pid = "" then r
    else
      { r with
        conns := updateConn r.conns sid (fun d =>
          { d with rooms := (d.rooms.filter (fun rm => rm.isProjectRoom = false))
              ++ [Room.project pid] })
        activeRooms := roomsAdd
          ((c.rooms.filter (fun rm => rm.isProjectRoom)).foldl
            (fun ar rm => removeUserFromRoom ar rm.projectOf c.userId) r.activeRooms)
          pid c.userId }

/-- The `leave_project` handler (src/socketHandlers.js lines 127-155). -/
def leaveProjectOp (r : Registry) (sid pid : String) : Registry :=
  match r.conns.find? (fun c => c.sid = sid) with
  | none => r
  | some c =>
    if c.authenticated = false then r
    else if pid = "" then r
    else
      { r with
        conns := updateConn r.conns sid
          (fun d => { d with rooms := d.rooms.erase (Room.project pid) })
        activeRooms := removeUserFromRoom r.activeRooms pid c.userId }

/-- The disconnect handler (src/socketHandlers.js lines 459-494): the socket
leaves the live set; when it was authenticated with a truthy user id, the user
is deleted from every room's set and the socket id from the user's socket
set. -/
def disconnectOp (r : Registry) (sid : String) : Registry :=
  match r.conns.find? (fun c => c.sid = sid) with
  | none => r
  | some c =>
    if c.authenticated = true ∧ c.userId ≠ "" then
      { conns := r.conns.filter (fun d => d.sid ≠ sid)
        activeRooms := roomsDeleteUser r.activeRooms c.userId
        userSockets := userSocketsRemove r.userSockets c.userId sid }
    else
      { r with conns := r.conns.filter (fun d => d.sid ≠ sid) }

/-- The operations of the claim: join, leave, disconnect. -/
inductive RegOp where
  | join (sid pid : String)
  | leave (sid pid : String)
  | disconnect (sid : String)
deriving DecidableEq

def applyOp (r : Registry) : RegOp → Registry
  | .join sid pid => joinProjectOp r sid pid
  | .leave sid pid => leaveProjectOp r sid pid
  | .disconnect sid => disconnectOp r sid

def applyOps (r : Registry) (ops : List RegOp) : Registry :=
  ops.foldl applyOp r

/-- The Presence Registry invariant of spec section 3: every socket id indexed
under a user belongs to a live authenticated socket with that user id, and
every user recorded as a member of a room has a live socket with that project
room joined. -/
def presenceInv (r : Registry) : Prop :=
  (∀ e ∈ r.userSockets, ∀ s ∈ e.2,
    ∃ c ∈ r.conns, c.sid = s ∧ c.authenticated = true ∧ c.userId = e.1) ∧
  (∀ e ∈ r.activeRooms, ∀ u ∈ e.2,
    ∃ c ∈ r.conns, c.userId = u ∧ Room.project e.1 ∈ c.rooms)

/-- Structural well-formedness of reachable registry states: transport-assigned
socket ids are unique, authenticated sockets carry a truthy user id (the
tracking and join guards test `socket.userId`), unauthenticated sockets hold no
project room (joining requires authentication), and the JS `Set` values are
duplicate-free. -/
def regWF (r : Registry) : Prop :=
  (r.conns.map Socket.sid).Nodup ∧
  (∀ c ∈ r.conns, c.authenticated = true → c.userId ≠ "") ∧
  (∀ c ∈ r.conns, c.authenticated = false → ∀ rm ∈ c.rooms, rm.isProjectRoom = false) ∧
  (∀ e ∈ r.activeRooms, e.2.Nodup) ∧
  (∀ e ∈ r.userSockets, e.2.Nodup)

instance (r : Registry) : Decidable (presenceInv r) := by
  unfold presenceInv
  infer_instance

instance (r : Registry) : Decidable (regWF r) := by
  unfold regWF
  infer_instance

/-! ## Theorems -/

/-- C2, counterexample: the two admission paths do not consume fully
independent budgets.  From a fresh non-trusted address, a single accepted
expired-token attempt at time 100000 stamps the shared `lastAttempt`
timestamp, and a fresh valid-credential (general) attempt at time 101000 is
then denied by the general cooldown even though the general counter is
still zero. -/
theorem claim_C2_counterexample :
    (checkConnectionRateLimit none "203.0.113.7" 100000 true).1 = true ∧
    ((checkConnectionRateLimit none "203.0.113.7" 100000 true).2.map Attempts.count)
      = some 0 ∧
    (checkConnectionRateLimit
        (checkConnectionRateLimit none "203.0.113.7" 100000 true).2
        "203.0.113.7" 101000 false).1 = false := by
  decide

/-- C2, amended: the two paths keep independent counters — a general attempt
is accepted whenever its own counter is below its ceiling and its cooldown
has elapsed, regardless of the expired-token counter, and symmetrically for
the expired-token path — and neither path ever increases the other's counter
(it can only leave it unchanged or reset it with the window); the paths do,
however, share the `lastAttempt` timestamp, so an attempt on either path can
deny a subsequent attempt on the other by cooldown. -/
theorem claim_C2 :
    (∀ (rec : Attempts) (ip : String) (now : Int),
      rec.count < (if isLocalhostIP ip then MAX_CONNECTIONS_LOCALHOST
                   else MAX_CONNECTIONS_PER_IP) →
      now - rec.lastAttempt ≥ (if isLocalhostIP ip then CONNECTION_COOLDOWN_LOCALHOST
                               else CONNECTION_COOLDOWN) →
      (checkConnectionRateLimit (some rec) ip now false).1 = true) ∧
    (∀ (rec : Attempts) (ip : String) (now : Int),
      rec.expiredTokenAttempts < (if isLocalhostIP ip then 50 else 10) →
      now - rec.lastAttempt ≥ (if isLocalhostIP ip then EXPIRED_TOKEN_COOLDOWN
                               else EXPIRED_TOKEN_COOLDOWN * 2) →
      (checkConnectionRateLimit (some rec) ip now true).1 = true) ∧
    (∀ (rec : Attempts) (ip : String) (now : Int),
      ∃ a, (checkConnectionRateLimit (some rec) ip now true).2 = some a ∧
        (a.count = rec.count ∨ a.count = 0)) ∧
    (∀ (rec : Attempts) (ip : String) (now : Int),
      ∃ a, (checkConnectionRateLimit (some rec) ip now false).2 = some a ∧
        (a.expiredTokenAttempts = rec.expiredTokenAttempts ∨
         a.expiredTokenAttempts = 0)) := by
  refine ⟨?_, ?_, ?_, ?_⟩
  · intro rec ip now hc hd
    rcases Bool.eq_false_or_eq_true (isLocalhostIP ip) with h | h <;>
      simp only [checkConnectionRateLimit, persistIfStored, Option.getD_some, h,
        MAX_CONNECTIONS_LOCALHOST, MAX_CONNECTIONS_PER_IP, CONNECTION_WINDOW,
        CONNECTION_COOLDOWN, CONNECTION_COOLDOWN_LOCALHOST, EXPIRED_TOKEN_COOLDOWN,
        if_true, if_false, Bool.false_eq_true, ite_true, ite_false] at hc hd ⊢ <;>
      split_ifs <;> first | rfl | (exfalso; (try simp only [] at *); omega)
  · intro rec ip now hc hd
    rcases Bool.eq_false_or_eq_true (isLocalhostIP ip) with h | h <;>
      simp only [checkConnectionRateLimit, persistIfStored, Option.getD_some, h,
        MAX_CONNECTIONS_LOCALHOST, MAX_CONNECTIONS_PER_IP, CONNECTION_WINDOW,
        CONNECTION_COOLDOWN, CONNECTION_COOLDOWN_LOCALHOST, EXPIRED_TOKEN_COOLDOWN,
        if_true, if_false, Bool.false_eq_true, ite_true, ite_false] at hc hd ⊢ <;>
      split_ifs <;> first | rfl | (exfalso; (try simp only [] at *); omega)
  · intro rec ip now
    simp only [checkConnectionRateLimit, persistIfStored, Option.getD_some,
      Bool.false_eq_true, if_false, ite_false, ite_true, if_true]
    split_ifs <;> simp
  · intro rec ip now
    simp only [checkConnectionRateLimit, persistIfStored, Option.getD_some,
      Bool.false_eq_true, if_false, ite_false, ite_true, if_true]
    split_ifs <;> simp

/-- Witness for C2 at concrete inputs: a general attempt is accepted while the
expired-token counter is exhausted at 9, and an expired-token attempt is
accepted while the general counter is exhausted at 9. -/
theorem claim_C2_witness :
    (checkConnectionRateLimit
        (some { count := 0, lastAttempt := 0, isLocalhost := false,
                expiredTokenAttempts := 9 }) "203.0.113.7" 100000 false).1 = true ∧
    (checkConnectionRateLimit
        (some { count := 9, lastAttempt := 0, isLocalhost := false,
                expiredTokenAttempts := 0 }) "203.0.113.7" 100000 true).1 = true :=
  ⟨claim_C2.1 ⟨0, 0, false, 9⟩ "203.0.113.7" 100000 (by decide) (by decide),
   claim_C2.2.1 ⟨9, 0, false, 0⟩ "203.0.113.7" 100000 (by decide) (by decide)⟩

/-- C3: the general admission path computes exactly the spec's decision
algorithm — reset both counters when the window has elapsed since the stored
timestamp, reject when the trust-class ceiling is reached or the trust-class
cooldown has not elapsed, and otherwise increment, stamp and accept — and in
the concrete non-trusted scenario the (c+1)-th attempt inside the window is
denied while a fresh attempt after the window elapses is accepted. -/
theorem claim_C3 :
    (∀ (rec : Attempts) (ip : String) (now : Int),
      checkConnectionRateLimit (some rec) ip now false
        = ((specAdmissionGeneral rec (isLocalhostIP ip) now).1,
           some { (specAdmissionGeneral rec (isLocalhostIP ip) now).2 with
                    isLocalhost := isLocalhostIP ip })) ∧
    (runGeneralAttempts none "203.0.113.7"
        [100000, 102000, 104000, 106000, 108000, 110000, 112000,
         114000, 116000, 118000, 120000, 178001]).2
      = [true, true, true, true, true, true, true, true, true, true,
         false, true] := by
  constructor
  · intro rec ip now
    unfold checkConnectionRateLimit specAdmissionGeneral
    simp only [persistIfStored, Option.getD_some]
    split_ifs <;> simp_all
  · decide

/-- C4, counterexample: the refresh handler does not re-run the connect-time
admission branching.  With a stored record whose general counter is exhausted
(count 10 for a non-trusted address, inside the window), connect-time handling
of a successfully verified token consults the normal admission variant, is
denied, and disconnects without authenticating, while the refresh handler
authenticates the same outcome without consulting admission at all. -/
theorem claim_C4_counterexample :
    (connectBranch .ok (some ⟨10, 100000, false, 0⟩) "203.0.113.5" 103000).1.admissionPath
      = some false ∧
    (connectBranch .ok (some ⟨10, 100000, false, 0⟩) "203.0.113.5" 103000).1.authenticated
      = false ∧
    (connectBranch .ok (some ⟨10, 100000, false, 0⟩) "203.0.113.5" 103000).1.closedNow
      = true ∧
    (refreshBranch .ok).admissionPath = none ∧
    (refreshBranch .ok).authenticated = true ∧
    (refreshBranch .ok).closedNow = false := by
  decide

/-- C4, amended: the refresh handler re-runs token verification but applies no
admission decision on any outcome: it never consults either admission variant,
never denies, never disconnects and schedules no timer; a successful
verification authenticates the socket and a failed one (expired or otherwise)
does not. -/
theorem claim_C4 :
    (∀ o : VerifyOutcome,
      (refreshBranch o).admissionPath = none ∧
      (refreshBranch o).admissionDenied = false ∧
      (refreshBranch o).closedNow = false ∧
      (refreshBranch o).timerDelayMs = none) ∧
    (refreshBranch .ok).authenticated = true ∧
    (refreshBranch .errExpired).authenticated = false ∧
    (refreshBranch .errOther).authenticated = false := by
  refine ⟨?_, rfl, rfl, rfl⟩
  intro o
  cases o <;> exact ⟨rfl, rfl, rfl, rfl⟩

/-- C6, counterexample: a no-credential connection from a rate-limited address
receives no authentication-required notice and is disconnected immediately
(with a rate-limit notice), before any grace period. -/
theorem claim_C6_counterexample :
    (noTokenConnect (some ⟨10, 100000, false, 0⟩) "203.0.113.9" 101000).1.emitsAuthRequired
      = false ∧
    (noTokenConnect (some ⟨10, 100000, false, 0⟩) "203.0.113.9" 101000).1.closedNow
      = true ∧
    (noTokenConnect (some ⟨10, 100000, false, 0⟩) "203.0.113.9" 101000).1.emitsRateLimit
      = true := by
  decide

/-- C6, amended: every no-credential connection that passes admission receives
the authentication-required notice and a 10-second grace timer and is not
closed at connect time; the timer's firing force-closes the connection exactly
when it is still unauthenticated, and is a no-op when it has authenticated. -/
theorem claim_C6 (stored : Option Attempts) (ip : String) (now : Int)
    (h : (noTokenConnect stored ip now).1.closedNow = false) :
    (noTokenConnect stored ip now).1.emitsAuthRequired = true ∧
    (noTokenConnect stored ip now).1.graceDelayMs = some 10000 ∧
    graceTimerFire false = true ∧
    graceTimerFire true = false := by
  unfold noTokenConnect at h ⊢
  dsimp only at h ⊢
  split_ifs at h ⊢
  all_goals simp_all [graceTimerFire]

/-- Witness for C6: a fresh non-trusted address at time 100000 is admitted, so
the amended guarantees apply. -/
theorem claim_C6_witness :
    (noTokenConnect none "203.0.113.9" 100000).1.closedNow = false ∧
    ((noTokenConnect none "203.0.113.9" 100000).1.emitsAuthRequired = true ∧
     (noTokenConnect none "203.0.113.9" 100000).1.graceDelayMs = some 10000 ∧
     graceTimerFire false = true ∧
     graceTimerFire true = false) :=
  ⟨by decide, claim_C6 none "203.0.113.9" 100000 (by decide)⟩

/-- C9: when team resolution fails (request error) or yields no team, every
broadcast handler (task_updated, task_created, task_deleted, project_updated)
emits nothing at all — no mirrored event to any socket and no error to the
sender — for any well-formed payload from an authenticated sender. -/
theorem claim_C9 (sender : Socket) (data : TaskEventData) (tid pid : Option String)
    (sockets : List Socket)
    (hauth : sender.authenticated = true)
    (htid : truthy data.taskId = true) (hpid : truthy data.projectId = true)
    (htd : data.hasTaskData = true)
    (htid2 : truthy tid = true) (hpid2 : truthy pid = true) :
    (∀ msg, getProjectTeamId (.error msg) = none) ∧
    getProjectTeamId (.ok none) = none ∧
    taskUpdatedEmits sender data none sockets = [] ∧
    taskCreatedEmits sender data none sockets = [] ∧
    taskDeletedEmits sender tid pid none sockets = [] ∧
    projectUpdatedEmits sender pid none sockets = [] := by
  refine ⟨fun msg => rfl, rfl, ?_, ?_, ?_, ?_⟩ <;>
    simp [taskUpdatedEmits, taskCreatedEmits, taskDeletedEmits, projectUpdatedEmits,
      hauth, htid, hpid, htd, htid2, hpid2]

/-- Witness for C9 at a concrete authenticated sender, payload and socket
list. -/
theorem claim_C9_witness :
    ((⟨"A", true, "u1", "member", []⟩ : Socket).authenticated = true ∧
     truthy (some "t1") = true ∧ truthy (some "p1") = true) ∧
    taskUpdatedEmits ⟨"A", true, "u1", "member", []⟩ ⟨some "t1", some "p1", true, none⟩
        none [⟨"B", true, "u2", "member", [Room.team "9"]⟩] = [] ∧
    projectUpdatedEmits ⟨"A", true, "u1", "member", []⟩ (some "p1")
        none [⟨"B", true, "u2", "member", [Room.team "9"]⟩] = [] :=
  ⟨⟨by decide, by decide, by decide⟩,
   (claim_C9 ⟨"A", true, "u1", "member", []⟩ ⟨some "t1", some "p1", true, none⟩
      (some "t1") (some "p1") [⟨"B", true, "u2", "member", [Room.team "9"]⟩]
      (by decide) (by decide) (by decide) (by decide) (by decide) (by decide)).2.2.1,
   (claim_C9 ⟨"A", true, "u1", "member", []⟩ ⟨some "t1", some "p1", true, none⟩
      (some "t1") (some "p1") [⟨"B", true, "u2", "member", [Room.team "9"]⟩]
      (by decide) (by decide) (by decide) (by decide) (by decide) (by decide)).2.2.2.2.2⟩

/-- C10: a decoded token that passes signature and expiry checks but whose
`type` claim is not the string `access` (for example a refresh token) makes
`verifyToken` throw the `InvalidTokenType` error, and since its message does
not mention expiry the connection handler takes the generic-error branch and
never authenticates the socket; the refresh handler does not authenticate on
it either. -/
theorem claim_C10 (d : JwtPayload) (h : d.type ≠ some "access") :
    verifyToken (.ok d) = .error .invalidTokenType ∧
    errToOutcome .invalidTokenType = .errOther ∧
    (∀ (stored : Option Attempts) (ip : String) (now : Int),
      (connectBranch (errToOutcome .invalidTokenType) stored ip now).1.authenticated
        = false) ∧
    (refreshBranch (errToOutcome .invalidTokenType)).authenticated = false := by
  refine ⟨?_, rfl, ?_, rfl⟩
  · simp [verifyToken, h]
  · intro stored ip now
    by_cases hb : (checkConnectionRateLimit stored ip now false).1 = true
    · simp [connectBranch, errToOutcome, errIsExpired, hb]
    · simp [connectBranch, errToOutcome, errIsExpired, hb]

/-- Witness for C10 on a concrete refresh-token payload. -/
theorem claim_C10_witness :
    ((⟨some "refresh", some "u1", some "a@b.io", none, none, 0, 0⟩ : JwtPayload).type
      ≠ some "access") ∧
    verifyToken (.ok ⟨some "refresh", some "u1", some "a@b.io", none, none, 0, 0⟩)
      = .error .invalidTokenType :=
  ⟨by decide,
   (claim_C10 ⟨some "refresh", some "u1", some "a@b.io", none, none, 0, 0⟩ (by decide)).1⟩

/-- C1: when a member-role sender broadcasts a task_updated or task_created
event whose taskData names a (truthy) assignee and the project's team
resolves, the emitted recipients are exactly the assignee's authenticated
sockets plus the sender's own socket: a pair is emitted if and only if it
targets the sender or an authenticated socket of the assignee, so a third
team member's socket receives nothing. -/
theorem claim_C1 (sender : Socket) (data : TaskEventData) (t a : String)
    (sockets : List Socket)
    (hauth : sender.authenticated = true)
    (hrole : sender.userRole = "member")
    (htid : truthy data.taskId = true)
    (hpid : truthy data.projectId = true)
    (htd : data.hasTaskData = true)
    (hass : data.assigneeId = some a)
    (ha : a ≠ "") :
    ∀ x ev,
      ((x, ev) ∈ taskUpdatedEmits sender data (some t) sockets ↔
        (ev = "task_updated" ∧ (x = sender.sid ∨
          ∃ s ∈ sockets, s.authenticated = true ∧ s.userId = a ∧ s.sid = x))) ∧
      ((x, ev) ∈ taskCreatedEmits sender data (some t) sockets ↔
        (ev = "task_created" ∧ (x = sender.sid ∨
          ∃ s ∈ sockets, s.authenticated = true ∧ s.userId = a ∧ s.sid = x))) := by
  intro x ev
  have htr : truthy (some a) = true := by simp [truthy, ha]
  have hb1 : taskUpdatedEmits sender data (some t) sockets
      = (sockets.filter (fun s => s.authenticated && some s.userId == some a)).map
          (fun s => (s.sid, "task_updated")) ++ [(sender.sid, "task_updated")] := by
    simp [taskUpdatedEmits, hauth, hrole, htid, hpid, htd, hass, htr]
  have hb2 : taskCreatedEmits sender data (some t) sockets
      = (sockets.filter (fun s => s.authenticated && some s.userId == some a)).map
          (fun s => (s.sid, "task_created")) ++ [(sender.sid, "task_created")] := by
    simp [taskCreatedEmits, hauth, hrole, htid, hpid, htd, hass, htr]
  have key : ∀ nm : String,
      ((x, ev) ∈ (sockets.filter (fun s => s.authenticated && some s.userId == some a)).map
          (fun s => (s.sid, nm)) ++ [(sender.sid, nm)] ↔
        (ev = nm ∧ (x = sender.sid ∨
          ∃ s ∈ sockets, s.authenticated = true ∧ s.userId = a ∧ s.sid = x))) := by
    intro nm
    simp only [List.mem_append, List.mem_map, List.mem_filter, List.mem_singleton,
      Bool.and_eq_true, beq_iff_eq, Option.some.injEq, Prod.mk.injEq]
    aesop
  rw [hb1, hb2]
  exact ⟨key "task_updated", key "task_created"⟩

/-- Witness for C1: a concrete member sender, an assignee with one
authenticated socket and a third authenticated team member; instantiating the
characterization at the third member's socket id shows it in neither emission
list. -/
theorem claim_C1_witness :
    ((⟨"A", true, "u1", "member", [Room.team "5"]⟩ : Socket).authenticated = true ∧
     (⟨"A", true, "u1", "member", [Room.team "5"]⟩ : Socket).userRole = "member") ∧
    (("C", "task_updated") ∈
        taskUpdatedEmits ⟨"A", true, "u1", "member", [Room.team "5"]⟩
          ⟨some "t1", some "p1", true, some "u2"⟩ (some "5")
          [⟨"A", true, "u1", "member", [Room.team "5"]⟩,
           ⟨"B", true, "u2", "member", [Room.team "5"]⟩,
           ⟨"C", true, "u3", "member", [Room.team "5"]⟩] ↔
      ("task_updated" = "task_updated" ∧ ("C" = "A" ∨
        ∃ s ∈ [⟨"A", true, "u1", "member", [Room.team "5"]⟩,
               ⟨"B", true, "u2", "member", [Room.team "5"]⟩,
               (⟨"C", true, "u3", "member", [Room.team "5"]⟩ : Socket)],
          s.authenticated = true ∧ s.userId = "u2" ∧ s.sid = "C"))) :=
  ⟨⟨by decide, by decide⟩,
   (claim_C1 ⟨"A", true, "u1", "member", [Room.team "5"]⟩
      ⟨some "t1", some "p1", true, some "u2"⟩ "5" "u2"
      [⟨"A", true, "u1", "member", [Room.team "5"]⟩,
       ⟨"B", true, "u2", "member", [Room.team "5"]⟩,
       ⟨"C", true, "u3", "member", [Room.team "5"]⟩]
      (by decide) (by decide) (by decide) (by decide) (by decide) (by decide)
      (by decide) "C" "task_updated").1⟩

/-- C7, counterexample: the ephemeral fan-out routes by the projectId named in
the payload, not by the caller's currently joined project room.  A caller
whose joined project room is P, sending a typing event naming project Q,
delivers the indicator to a socket that is in room Q and not in the caller's
room P — so delivery is not confined to the caller's currently joined
room's members. -/
theorem claim_C7_counterexample :
    userTypingEmits ⟨"A", true, "u", "member", [Room.project "P"]⟩ (some "Q")
        [⟨"A", true, "u", "member", [Room.project "P"]⟩,
         ⟨"B", true, "v", "member", [Room.project "Q"]⟩]
      = [("B", "typing_indicator")] ∧
    Room.project "Q" ∉ (⟨"A", true, "u", "member", [Room.project "P"]⟩ : Socket).rooms ∧
    Room.project "P" ∉ (⟨"B", true, "v", "member", [Room.project "Q"]⟩ : Socket).rooms := by
  decide

/-- C7, amended: for an authenticated sender, the typing_indicator and
user_cursor notifications are delivered exactly to the sockets currently in
the project room named by the event payload other than the sender itself —
never to the sender — and if no socket has that room joined the event
produces no emission (silent drop); team resolution is not involved. -/
theorem claim_C7 (sender : Socket) (p : String) (sockets : List Socket)
    (hauth : sender.authenticated = true) (hp : p ≠ "") :
    (∀ ev, (sender.sid, ev) ∉ userTypingEmits sender (some p) sockets) ∧
    (∀ x ev, (x, ev) ∈ userTypingEmits sender (some p) sockets ↔
      (ev = "typing_indicator" ∧
        ∃ s ∈ sockets, s.sid = x ∧ s.sid ≠ sender.sid ∧ Room.project p ∈ s.rooms)) ∧
    ((∀ s ∈ sockets, Room.project p ∉ s.rooms) →
      userTypingEmits sender (some p) sockets = []) ∧
    (∀ x ev, (x, ev) ∈ cursorPositionEmits sender (some p) true sockets ↔
      (ev = "user_cursor" ∧
        ∃ s ∈ sockets, s.sid = x ∧ s.sid ≠ sender.sid ∧ Room.project p ∈ s.rooms)) := by
  have hmem : ∀ (x ev nm : String),
      ((x, ev) ∈ (sockets.filter
          (fun s => Room.project p ∈ s.rooms && s.sid != sender.sid)).map
            (fun s => (s.sid, nm)) ↔
        (ev = nm ∧ ∃ s ∈ sockets, s.sid = x ∧ s.sid ≠ sender.sid ∧
          Room.project p ∈ s.rooms)) := by
    intro x ev nm
    simp only [List.mem_map, List.mem_filter, Bool.and_eq_true, bne_iff_ne,
      decide_eq_true_eq, Prod.mk.injEq, ne_eq]
    constructor
    · rintro ⟨s, ⟨hs, hrm, hsid⟩, hx, hev⟩
      exact ⟨hev.symm, s, hs, hx, hsid, hrm⟩
    · rintro ⟨hev, s, hs, hx, hsid, hrm⟩
      exact ⟨s, ⟨hs, hrm, hsid⟩, hx, hev.symm⟩
  refine ⟨?_, ?_, ?_, ?_⟩
  · intro ev hmemEv
    rw [show userTypingEmits sender (some p) sockets
        = (sockets.filter (fun s => Room.project p ∈ s.rooms && s.sid != sender.sid)).map
            (fun s => (s.sid, "typing_indicator")) by
      simp [userTypingEmits, hauth, hp]] at hmemEv
    rcases (hmem sender.sid ev "typing_indicator").1 hmemEv with ⟨-, s, -, hx, hne, -⟩
    exact hne hx
  · intro x ev
    rw [show userTypingEmits sender (some p) sockets
        = (sockets.filter (fun s => Room.project p ∈ s.rooms && s.sid != sender.sid)).map
            (fun s => (s.sid, "typing_indicator")) by
      simp [userTypingEmits, hauth, hp]]
    exact hmem x ev "typing_indicator"
  · intro hnone
    rw [show userTypingEmits sender (some p) sockets
        = (sockets.filter (fun s => Room.project p ∈ s.rooms && s.sid != sender.sid)).map
            (fun s => (s.sid, "typing_indicator")) by
      simp [userTypingEmits, hauth, hp]]
    rw [List.map_eq_nil_iff, List.filter_eq_nil_iff]
    intro s hs
    simp only [Bool.and_eq_true, decide_eq_true_eq, bne_iff_ne, not_and]
    intro hrm
    exact absurd hrm (hnone s hs)
  · intro x ev
    rw [show cursorPositionEmits sender (some p) true sockets
        = (sockets.filter (fun s => Room.project p ∈ s.rooms && s.sid != sender.sid)).map
            (fun s => (s.sid, "user_cursor")) by
      simp [cursorPositionEmits, hauth, hp]]
    exact hmem x ev "user_cursor"

/-- Witness for C7: a concrete authenticated sender and room; the sender's own
socket id does not occur in the emission list. -/
theorem claim_C7_witness :
    ((⟨"A", true, "u", "member", [Room.project "P"]⟩ : Socket).authenticated = true ∧
     "P" ≠ "") ∧
    (∀ ev, (("A" : String), ev) ∉
      userTypingEmits ⟨"A", true, "u", "member", [Room.project "P"]⟩ (some "P")
        [⟨"A", true, "u", "member", [Room.project "P"]⟩,
         ⟨"B", true, "v", "member", [Room.project "P"]⟩]) :=
  ⟨⟨by decide, by decide⟩,
   (claim_C7 ⟨"A", true, "u", "member", [Room.project "P"]⟩ "P"
      [⟨"A", true, "u", "member", [Room.project "P"]⟩,
       ⟨"B", true, "v", "member", [Room.project "P"]⟩]
      (by decide) (by decide)).1⟩

/-! ### Helper lemmas about the registry primitives -/

theorem mem_updateConn {conns : List Socket} {sid : String} {f : Socket → Socket}
    {d' : Socket} (h : d' ∈ updateConn conns sid f) :
    ∃ d ∈ conns, (if d.sid = sid then f d else d) = d' := by
  unfold updateConn at h
  exact List.mem_map.1 h

theorem mem_updateConn_of {conns : List Socket} {sid : String} {f : Socket → Socket}
    {d : Socket} (h : d ∈ conns) :
    (if d.sid = sid then f d else d) ∈ updateConn conns sid f :=
  List.mem_map_of_mem _ h

theorem updateConn_map_sid {conns : List Socket} {sid : String} {f : Socket → Socket}
    (hf : ∀ c, (f c).sid = c.sid) :
    (updateConn conns sid f).map Socket.sid = conns.map Socket.sid := by
  unfold updateConn
  rw [List.map_map]
  apply List.map_congr_left
  intro c _
  by_cases h : c.sid = sid <;> simp [h, hf]

theorem sid_unique {conns : List Socket} (hnd : (conns.map Socket.sid).Nodup)
    {c d : Socket} (hc : c ∈ conns) (hd : d ∈ conns) (h : c.sid = d.sid) : c = d :=
  List.inj_on_of_nodup_map hnd hc hd h

theorem removeUserFromRoom_sound {ar : List (String × List String)} {p u : String}
    {e : String × List String} (he : e ∈ removeUserFromRoom ar p u)
    {v : String} (hv : v ∈ e.2) :
    ∃ e₀ ∈ ar, e₀.1 = e.1 ∧ v ∈ e₀.2 := by
  unfold removeUserFromRoom at he
  rcases List.mem_filter.1 he with ⟨hmap, -⟩
  rcases List.mem_map.1 hmap with ⟨e₀, he₀, heq⟩
  by_cases hk : e₀.1 = p
  · rw [if_pos hk] at heq
    refine ⟨e₀, he₀, ?_, ?_⟩
    · rw [← heq]
    · have : v ∈ e₀.2.erase u := by rw [← heq] at hv; exact hv
      exact List.mem_of_mem_erase this
  · rw [if_neg hk] at heq
    exact ⟨e₀, he₀, by rw [heq], by rw [heq]; exact hv⟩

theorem removeUserFromRoom_nodup {ar : List (String × List String)} {p u : String}
    (h : ∀ e ∈ ar, e.2.Nodup) :
    ∀ e ∈ removeUserFromRoom ar p u, e.2.Nodup := by
  intro e he
  unfold removeUserFromRoom at he
  rcases List.mem_filter.1 he with ⟨hmap, -⟩
  rcases List.mem_map.1 hmap with ⟨e₀, he₀, heq⟩
  by_cases hk : e₀.1 = p
  · rw [if_pos hk] at heq
    rw [← heq]
    exact (h e₀ he₀).erase u
  · rw [if_neg hk] at heq
    rw [← heq]
    exact h e₀ he₀

theorem removeUserFromRoom_cleared {ar : List (String × List String)} {p u : String}
    (hnd : ∀ e ∈ ar, e.2.Nodup) :
    ∀ e ∈ removeUserFromRoom ar p u, e.1 = p → u ∉ e.2 := by
  intro e he hk hu
  unfold removeUserFromRoom at he
  rcases List.mem_filter.1 he with ⟨hmap, -⟩
  rcases List.mem_map.1 hmap with ⟨e₀, he₀, heq⟩
  by_cases hk₀ : e₀.1 = p
  · rw [if_pos hk₀] at heq
    have : u ∈ e₀.2.erase u := by rw [← heq] at hu; exact hu
    exact (((hnd e₀ he₀).mem_erase_iff).1 this).1 rfl
  · rw [if_neg hk₀] at heq
    rw [← heq] at hk
    exact hk₀ hk

theorem removeUserFromRoom_pres_cleared {ar : List (String × List String)}
    {p u q w : String} (h : ∀ e ∈ ar, e.1 = q → w ∉ e.2) :
    ∀ e ∈ removeUserFromRoom ar p u, e.1 = q → w ∉ e.2 := by
  intro e he hk hw
  rcases removeUserFromRoom_sound he hw with ⟨e₀, he₀, hkeq, hw₀⟩
  exact h e₀ he₀ (hkeq.trans hk) hw₀

theorem roomsAdd_mem_cases {ar : List (String × List String)} {p u : String}
    {e : String × List String} (he : e ∈ roomsAdd ar p u)
    {v : String} (hv : v ∈ e.2) :
    (∃ e₀ ∈ ar, e₀.1 = e.1 ∧ v ∈ e₀.2) ∨ (e.1 = p ∧ v = u) := by
  unfold roomsAdd at he
  by_cases hex : ar.any (fun x => x.1 = p)
  · rw [if_pos hex] at he
    rcases List.mem_map.1 he with ⟨e₀, he₀, heq⟩
    by_cases hk : e₀.1 = p
    · rw [if_pos hk] at heq
      by_cases hu : u ∈ e₀.2
      · rw [if_pos hu] at heq
        exact Or.inl ⟨e₀, he₀, by rw [← heq], by rw [← heq] at hv; exact hv⟩
      · rw [if_neg hu] at heq
        have hv' : v ∈ e₀.2 ++ [u] := by rw [← heq] at hv; exact hv
        rcases List.mem_append.1 hv' with h2 | h2
        · exact Or.inl ⟨e₀, he₀, by rw [← heq], h2⟩
        · exact Or.inr ⟨by rw [← heq]; exact hk, List.mem_singleton.1 h2⟩
    · rw [if_neg hk] at heq
      exact Or.inl ⟨e₀, he₀, by rw [heq], by rw [heq]; exact hv⟩
  · rw [if_neg hex] at he
    rcases List.mem_append.1 he with h2 | h2
    · exact Or.inl ⟨e, h2, rfl, hv⟩
    · have h3 := List.mem_singleton.1 h2
      rw [h3] at hv ⊢
      exact Or.inr ⟨rfl, List.mem_singleton.1 hv⟩

theorem roomsAdd_nodup {ar : List (String × List String)} {p u : String}
    (h : ∀ e ∈ ar, e.2.Nodup) :
    ∀ e ∈ roomsAdd ar p u, e.2.Nodup := by
  intro e he
  unfold roomsAdd at he
  by_cases hex : ar.any (fun x => x.1 = p)
  · rw [if_pos hex] at he
    rcases List.mem_map.1 he with ⟨e₀, he₀, heq⟩
    by_cases hk : e₀.1 = p
    · rw [if_pos hk] at heq
      by_cases hu : u ∈ e₀.2
      · rw [if_pos hu] at heq
        rw [← heq]
        exact h e₀ he₀
      · rw [if_neg hu] at heq
        rw [← heq]
        show (e₀.2 ++ [u]).Nodup
        rw [List.nodup_append]
        refine ⟨h e₀ he₀, List.nodup_singleton u, ?_⟩
        intro a ha hb
        exact hu ((List.mem_singleton.1 hb) ▸ ha)
    · rw [if_neg hk] at heq
      rw [← heq]
      exact h e₀ he₀
  · rw [if_neg hex] at he
    rcases List.mem_append.1 he with h2 | h2
    · exact h e h2
    · rw [List.mem_singleton.1 h2]
      exact List.nodup_singleton u

theorem roomsAdd_added {ar : List (String × List String)} {p u : String} :
    ∃ e ∈ roomsAdd ar p u, e.1 = p ∧ u ∈ e.2 := by
  unfold roomsAdd
  by_cases hex : ar.any (fun x => x.1 = p)
  · rw [if_pos hex]
    rcases List.any_eq_true.1 hex with ⟨e₀, he₀, hk⟩
    have hk' : e₀.1 = p := by simpa using hk
    refine ⟨if e₀.1 = p then (e₀.1, if u ∈ e₀.2 then e₀.2 else e₀.2 ++ [u]) else e₀,
      List.mem_map_of_mem _ he₀, ?_⟩
    rw [if_pos hk']
    refine ⟨hk', ?_⟩
    by_cases hu : u ∈ e₀.2
    · rw [if_pos hu]; exact hu
    · rw [if_neg hu]; exact List.mem_append.2 (Or.inr (List.mem_singleton.2 rfl))
  · rw [if_neg hex]
    exact ⟨(p, [u]), List.mem_append.2 (Or.inr (List.mem_singleton.2 rfl)), rfl,
      List.mem_singleton.2 rfl⟩

theorem roomsDeleteUser_sound {ar : List (String × List String)} {u : String}
    (hnd : ∀ e ∈ ar, e.2.Nodup) :
    ∀ e ∈ roomsDeleteUser ar u, ∀ v ∈ e.2,
      (∃ e₀ ∈ ar, e₀.1 = e.1 ∧ v ∈ e₀.2) ∧ v ≠ u := by
  intro e he v hv
  unfold roomsDeleteUser at he
  rcases List.mem_map.1 he with ⟨e₀, he₀, heq⟩
  have hv' : v ∈ e₀.2.erase u := by rw [← heq] at hv; exact hv
  have h2 := ((hnd e₀ he₀).mem_erase_iff).1 hv'
  exact ⟨⟨e₀, he₀, by rw [← heq], h2.2⟩, h2.1⟩

theorem roomsDeleteUser_nodup {ar : List (String × List String)} {u : String}
    (h : ∀ e ∈ ar, e.2.Nodup) :
    ∀ e ∈ roomsDeleteUser ar u, e.2.Nodup := by
  intro e he
  unfold roomsDeleteUser at he
  rcases List.mem_map.1 he with ⟨e₀, he₀, heq⟩
  rw [← heq]
  exact (h e₀ he₀).erase u

theorem userSocketsRemove_sound {us : List (String × List String)} {u sid : String}
    (hnd : ∀ e ∈ us, e.2.Nodup) :
    ∀ e ∈ userSocketsRemove us u sid, ∀ s ∈ e.2,
      (∃ e₀ ∈ us, e₀.1 = e.1 ∧ s ∈ e₀.2) ∧ (e.1 = u → s ≠ sid) := by
  intro e he s hs
  unfold userSocketsRemove at he
  rcases List.mem_filter.1 he with ⟨hmap, -⟩
  rcases List.mem_map.1 hmap with ⟨e₀, he₀, heq⟩
  by_cases hk : e₀.1 = u
  · rw [if_pos hk] at heq
    have hs' : s ∈ e₀.2.erase sid := by rw [← heq] at hs; exact hs
    have h2 := ((hnd e₀ he₀).mem_erase_iff).1 hs'
    exact ⟨⟨e₀, he₀, by rw [← heq], h2.2⟩, fun _ => h2.1⟩
  · rw [if_neg hk] at heq
    refine ⟨⟨e₀, he₀, by rw [heq], by rw [heq]; exact hs⟩, ?_⟩
    intro hku
    rw [← heq] at hku
    exact absurd hku hk

theorem userSocketsRemove_nodup {us : List (String × List String)} {u sid : String}
    (h : ∀ e ∈ us, e.2.Nodup) :
    ∀ e ∈ userSocketsRemove us u sid, e.2.Nodup := by
  intro e he
  unfold userSocketsRemove at he
  rcases List.mem_filter.1 he with ⟨hmap, -⟩
  rcases List.mem_map.1 hmap with ⟨e₀, he₀, heq⟩
  by_cases hk : e₀.1 = u
  · rw [if_pos hk] at heq
    rw [← heq]
    exact (h e₀ he₀).erase sid
  · rw [if_neg hk] at heq
    rw [← heq]
    exact h e₀ he₀

theorem foldRemove_sound : ∀ (ps : List Room) (ar : List (String × List String))
    (u : String) {e : String × List String},
    e ∈ ps.foldl (fun a rm => removeUserFromRoom a rm.projectOf u) ar →
    ∀ {v : String}, v ∈ e.2 → ∃ e₀ ∈ ar, e₀.1 = e.1 ∧ v ∈ e₀.2 := by
  intro ps
  induction ps with
  | nil => intro ar u e he v hv; exact ⟨e, he, rfl, hv⟩
  | cons rm ps ih =>
    intro ar u e he v hv
    rcases ih (removeUserFromRoom ar rm.projectOf u) u he hv with ⟨e₁, he₁, hk, hv₁⟩
    rcases removeUserFromRoom_sound he₁ hv₁ with ⟨e₀, he₀, hk₀, hv₀⟩
    exact ⟨e₀, he₀, hk₀.trans hk, hv₀⟩

theorem foldRemove_nodup : ∀ (ps : List Room) (ar : List (String × List String))
    (u : String), (∀ e ∈ ar, e.2.Nodup) →
    ∀ e ∈ ps.foldl (fun a rm => removeUserFromRoom a rm.projectOf u) ar, e.2.Nodup := by
  intro ps
  induction ps with
  | nil => intro ar u h e he; exact h e he
  | cons rm ps ih =>
    intro ar u h e he
    exact ih (removeUserFromRoom ar rm.projectOf u) u (removeUserFromRoom_nodup h) e he

theorem foldRemove_pres_cleared : ∀ (ps : List Room) (ar : List (String × List String))
    (u q w : String), (∀ e ∈ ar, e.1 = q → w ∉ e.2) →
    ∀ e ∈ ps.foldl (fun a rm => removeUserFromRoom a rm.projectOf u) ar,
      e.1 = q → w ∉ e.2 := by
  intro ps
  induction ps with
  | nil => intro ar u q w h e he; exact h e he
  | cons rm ps ih =>
    intro ar u q w h e he
    exact ih (removeUserFromRoom ar rm.projectOf u) u q w
      (removeUserFromRoom_pres_cleared h) e he

theorem foldRemove_cleared : ∀ (ps : List Room) (ar : List (String × List String))
    (u : String), (∀ e ∈ ar, e.2.Nodup) →
    ∀ rm ∈ ps, ∀ e ∈ ps.foldl (fun a rm => removeUserFromRoom a rm.projectOf u) ar,
      e.1 = rm.projectOf → u ∉ e.2 := by
  intro ps
  induction ps with
  | nil => intro ar u _ rm hrm; exact absurd hrm (List.not_mem_nil rm)
  | cons rm0 ps ih =>
    intro ar u hnd rm hrm e he hk
    rcases List.mem_cons.1 hrm with h0 | h0
    · subst h0
      exact foldRemove_pres_cleared ps (removeUserFromRoom ar rm.projectOf u) u
        rm.projectOf u (removeUserFromRoom_cleared hnd) e he hk
    · exact ih (removeUserFromRoom ar rm0.projectOf u) u
        (removeUserFromRoom_nodup hnd) rm h0 e he hk

/-- Invariant preservation for `join_project`. -/
theorem joinProjectOp_pres (r : Registry) (sid pid : String)
    (hwf : regWF r) (hinv : presenceInv r) :
    regWF (joinProjectOp r sid pid) ∧ presenceInv (joinProjectOp r sid pid) := by
  obtain ⟨hnd, hui, hnp, harnd, husnd⟩ := hwf
  obtain ⟨h1, h2⟩ := hinv
  unfold joinProjectOp
  rcases hfind : r.conns.find? (fun c => c.sid = sid) with _ | c
  · simp only [hfind]
    exact ⟨⟨hnd, hui, hnp, harnd, husnd⟩, h1, h2⟩
  · simp only [hfind]
    have hc_mem : c ∈ r.conns := List.mem_of_find?_eq_some hfind
    have hc_sid : c.sid = sid := by simpa using List.find?_some hfind
    by_cases hauth : c.authenticated = false
    · rw [if_pos hauth]
      exact ⟨⟨hnd, hui, hnp, harnd, husnd⟩, h1, h2⟩
    · rw [if_neg hauth]
      by_cases hpid : pid = ""
      · rw [if_pos hpid]
        exact ⟨⟨hnd, hui, hnp, harnd, husnd⟩, h1, h2⟩
      · rw [if_neg hpid]
        have hcauth : c.authenticated = true := by
          cases hca : c.authenticated
          · exact absurd hca hauth
          · rfl
        constructor
        · refine ⟨?_, ?_, ?_, ?_, husnd⟩
          · show ((updateConn r.conns sid _).map Socket.sid).Nodup
            rw [@updateConn_map_sid r.conns sid (fun d =>
              { d with rooms := (d.rooms.filter (fun rm => rm.isProjectRoom = false))
                  ++ [Room.project pid] }) (fun d => rfl)]
            exact hnd
          · intro d' hd' hd'a
            rcases mem_updateConn hd' with ⟨d, hd, heq⟩
            by_cases hds : d.sid = sid
            · rw [if_pos hds] at heq
              rw [← heq] at hd'a ⊢
              exact hui d hd hd'a
            · rw [if_neg hds] at heq
              rw [← heq] at hd'a ⊢
              exact hui d hd hd'a
          · intro d' hd' hd'a rm hrm
            rcases mem_updateConn hd' with ⟨d, hd, heq⟩
            by_cases hds : d.sid = sid
            · exfalso
              have hdc : d = c := sid_unique hnd hd hc_mem (hds.trans hc_sid.symm)
              rw [if_pos hds] at heq
              rw [← heq] at hd'a
              rw [hdc] at hd'a
              rw [hcauth] at hd'a
              exact Bool.noConfusion hd'a
            · rw [if_neg hds] at heq
              rw [← heq] at hd'a hrm
              exact hnp d hd hd'a rm hrm
          · intro e he
            exact roomsAdd_nodup (foldRemove_nodup _ _ _ harnd) e he
        · constructor
          · intro e he s hs
            rcases h1 e he s hs with ⟨w, hw, hwsid, hwa, hwu⟩
            refine ⟨if w.sid = sid then _ else w, mem_updateConn_of hw, ?_⟩
            by_cases hws : w.sid = sid
            · rw [if_pos hws]
              exact ⟨hwsid, hwa, hwu⟩
            · rw [if_neg hws]
              exact ⟨hwsid, hwa, hwu⟩
          · intro e he u' hu'
            rcases roomsAdd_mem_cases he hu' with ⟨e₁, he₁, hk₁, hv₁⟩ | ⟨hk, hv⟩
            · rcases foldRemove_sound _ _ _ he₁ hv₁ with ⟨e₀, he₀, hk₀, hv₀⟩
              rcases h2 e₀ he₀ u' hv₀ with ⟨w, hw, hwu, hwrm⟩
              by_cases hws : w.sid = sid
              · exfalso
                have hwc : w = c := sid_unique hnd hw hc_mem (hws.trans hc_sid.symm)
                have hprm : Room.project e₀.1 ∈ c.rooms.filter
                    (fun rm => rm.isProjectRoom) := by
                  rw [← hwc]
                  exact List.mem_filter.2 ⟨hwrm, rfl⟩
                have hclr := foldRemove_cleared _ r.activeRooms c.userId harnd
                  (Room.project e₀.1) hprm e₁ he₁ hk₀.symm
                rw [← hwc, hwu] at hclr
                exact hclr hv₁
              · refine ⟨w, ?_, hwu, ?_⟩
                · have := @mem_updateConn_of r.conns sid (fun d => { d with rooms :=
                      (d.rooms.filter (fun rm => rm.isProjectRoom = false))
                        ++ [Room.project pid] }) w hw
                  rw [if_neg hws] at this
                  exact this
                · rw [← hk₁, ← hk₀]
                  exact hwrm
            · refine ⟨{ c with rooms :=
                  (c.rooms.filter (fun rm => rm.isProjectRoom = false))
                    ++ [Room.project pid] }, ?_, ?_, ?_⟩
              · have := @mem_updateConn_of r.conns sid (fun d => { d with rooms :=
                    (d.rooms.filter (fun rm => rm.isProjectRoom = false))
                      ++ [Room.project pid] }) c hc_mem
                rw [if_pos hc_sid] at this
                exact this
              · rw [hv]
              · rw [hk]
                exact List.mem_append.2 (Or.inr (List.mem_singleton.2 rfl))

/-- Invariant preservation for `leave_project`. -/
theorem leaveProjectOp_pres (r : Registry) (sid pid : String)
    (hwf : regWF r) (hinv : presenceInv r) :
    regWF (leaveProjectOp r sid pid) ∧ presenceInv (leaveProjectOp r sid pid) := by
  obtain ⟨hnd, hui, hnp, harnd, husnd⟩ := hwf
  obtain ⟨h1, h2⟩ := hinv
  unfold leaveProjectOp
  rcases hfind : r.conns.find? (fun c => c.sid = sid) with _ | c
  · simp only [hfind]
    exact ⟨⟨hnd, hui, hnp, harnd, husnd⟩, h1, h2⟩
  · simp only [hfind]
    have hc_mem : c ∈ r.conns := List.mem_of_find?_eq_some hfind
    have hc_sid : c.sid = sid := by simpa using List.find?_some hfind
    by_cases hauth : c.authenticated = false
    · rw [if_pos hauth]
      exact ⟨⟨hnd, hui, hnp, harnd, husnd⟩, h1, h2⟩
    · rw [if_neg hauth]
      by_cases hpid : pid = ""
      · rw [if_pos hpid]
        exact ⟨⟨hnd, hui, hnp, harnd, husnd⟩, h1, h2⟩
      · rw [if_neg hpid]
        constructor
        · refine ⟨?_, ?_, ?_, ?_, husnd⟩
          · show ((updateConn r.conns sid _).map Socket.sid).Nodup
            rw [@updateConn_map_sid r.conns sid (fun d =>
              { d with rooms := d.rooms.erase (Room.project pid) }) (fun d => rfl)]
            exact hnd
          · intro d' hd' hd'a
            rcases mem_updateConn hd' with ⟨d, hd, heq⟩
            by_cases hds : d.sid = sid
            · rw [if_pos hds] at heq
              rw [← heq] at hd'a ⊢
              exact hui d hd hd'a
            · rw [if_neg hds] at heq
              rw [← heq] at hd'a ⊢
              exact hui d hd hd'a
          · intro d' hd' hd'a rm hrm
            rcases mem_updateConn hd' with ⟨d, hd, heq⟩
            by_cases hds : d.sid = sid
            · rw [if_pos hds] at heq
              rw [← heq] at hd'a hrm
              exact hnp d hd hd'a rm (List.mem_of_mem_erase hrm)
            · rw [if_neg hds] at heq
              rw [← heq] at hd'a hrm
              exact hnp d hd hd'a rm hrm
          · intro e he
            exact removeUserFromRoom_nodup harnd e he
        · constructor
          · intro e he s hs
            rcases h1 e he s hs with ⟨w, hw, hwsid, hwa, hwu⟩
            refine ⟨if w.sid = sid then _ else w, mem_updateConn_of hw, ?_⟩
            by_cases hws : w.sid = sid
            · rw [if_pos hws]
              exact ⟨hwsid, hwa, hwu⟩
            · rw [if_neg hws]
              exact ⟨hwsid, hwa, hwu⟩
          · intro e he u' hu'
            rcases removeUserFromRoom_sound he hu' with ⟨e₀, he₀, hk₀, hv₀⟩
            rcases h2 e₀ he₀ u' hv₀ with ⟨w, hw, hwu, hwrm⟩
            by_cases hws : w.sid = sid
            · have hwc : w = c := sid_unique hnd hw hc_mem (hws.trans hc_sid.symm)
              by_cases hkey : e.1 = pid
              · exfalso
                have hclr := removeUserFromRoom_cleared harnd e he hkey
                rw [← hwc, hwu] at hclr
                exact hclr hu'
              · refine ⟨{ c with rooms := c.rooms.erase (Room.project pid) }, ?_, ?_, ?_⟩
                · have := @mem_updateConn_of r.conns sid (fun d =>
                    { d with rooms := d.rooms.erase (Room.project pid) }) c hc_mem
                  rw [if_pos hc_sid] at this
                  exact this
                · rw [← hwc]
                  exact hwu
                · have hne : Room.project e.1 ≠ Room.project pid := by
                    intro hcontra
                    exact hkey (Room.project.injEq e.1 pid ▸ hcontra)
                  refine (List.mem_erase_of_ne hne).2 ?_
                  rw [hk₀, hwc] at hwrm
                  exact hwrm
            · refine ⟨w, ?_, hwu, ?_⟩
              · have := @mem_updateConn_of r.conns sid (fun d =>
                  { d with rooms := d.rooms.erase (Room.project pid) }) w hw
                rw [if_neg hws] at this
                exact this
              · rw [← hk₀]
                exact hwrm

/-- Invariant preservation for disconnect. -/
theorem disconnectOp_pres (r : Registry) (sid : String)
    (hwf : regWF r) (hinv : presenceInv r) :
    regWF (disconnectOp r sid) ∧ presenceInv (disconnectOp r sid) := by
  obtain ⟨hnd, hui, hnp, harnd, husnd⟩ := hwf
  obtain ⟨h1, h2⟩ := hinv
  unfold disconnectOp
  rcases hfind : r.conns.find? (fun c => c.sid = sid) with _ | c
  · simp only [hfind]
    exact ⟨⟨hnd, hui, hnp, harnd, husnd⟩, h1, h2⟩
  · simp only [hfind]
    have hc_mem : c ∈ r.conns := List.mem_of_find?_eq_some hfind
    have hc_sid : c.sid = sid := by simpa using List.find?_some hfind
    have hsubnd : ((r.conns.filter (fun d => d.sid ≠ sid)).map Socket.sid).Nodup :=
      hnd.sublist ((List.filter_sublist r.conns).map Socket.sid)
    have hsub_mem : ∀ d ∈ r.conns.filter (fun d => d.sid ≠ sid), d ∈ r.conns :=
      fun d hd => (List.mem_filter.1 hd).1
    have hmem_sub : ∀ d ∈ r.conns, d.sid ≠ sid →
        d ∈ r.conns.filter (fun d => d.sid ≠ sid) := by
      intro d hd hne
      exact List.mem_filter.2 ⟨hd, by simpa using hne⟩
    by_cases hcase : c.authenticated = true ∧ c.userId ≠ ""
    · rw [if_pos hcase]
      constructor
      · refine ⟨hsubnd, ?_, ?_, ?_, ?_⟩
        · intro d hd
          exact hui d (hsub_mem d hd)
        · intro d hd
          exact hnp d (hsub_mem d hd)
        · intro e he
          exact roomsDeleteUser_nodup harnd e he
        · intro e he
          exact userSocketsRemove_nodup husnd e he
      · constructor
        · intro e he s hs
          rcases userSocketsRemove_sound husnd e he s hs with ⟨⟨e₀, he₀, hk₀, hs₀⟩, hksid⟩
          rcases h1 e₀ he₀ s hs₀ with ⟨w, hw, hwsid, hwa, hwu⟩
          have hwne : w.sid ≠ sid := by
            intro hws
            have hwc : w = c := sid_unique hnd hw hc_mem (hws.trans hc_sid.symm)
            have : e.1 = c.userId := by
              rw [← hk₀, ← hwu, hwc]
            have hsne := hksid this
            rw [← hwsid] at hsne
            exact hsne hws
          exact ⟨w, hmem_sub w hw hwne, hwsid, hwa, by rw [hwu, hk₀]⟩
        · intro e he u' hu'
          rcases roomsDeleteUser_sound harnd e he u' hu' with ⟨⟨e₀, he₀, hk₀, hv₀⟩, hvne⟩
          rcases h2 e₀ he₀ u' hv₀ with ⟨w, hw, hwu, hwrm⟩
          have hwne : w.sid ≠ sid := by
            intro hws
            have hwc : w = c := sid_unique hnd hw hc_mem (hws.trans hc_sid.symm)
            rw [hwc] at hwu
            exact hvne hwu.symm
          exact ⟨w, hmem_sub w hw hwne, hwu, by rw [← hk₀]; exact hwrm⟩
    · rw [if_neg hcase]
      have hcfalse : c.authenticated = false := by
        cases hca : c.authenticated
        · rfl
        · exfalso
          exact hcase ⟨hca, hui c hc_mem hca⟩
      constructor
      · refine ⟨hsubnd, ?_, ?_, harnd, husnd⟩
        · intro d hd
          exact hui d (hsub_mem d hd)
        · intro d hd
          exact hnp d (hsub_mem d hd)
      · constructor
        · intro e he s hs
          rcases h1 e he s hs with ⟨w, hw, hwsid, hwa, hwu⟩
          have hwne : w.sid ≠ sid := by
            intro hws
            have hwc : w = c := sid_unique hnd hw hc_mem (hws.trans hc_sid.symm)
            rw [hwc] at hwa
            rw [hcfalse] at hwa
            exact Bool.noConfusion hwa
          exact ⟨w, hmem_sub w hw hwne, hwsid, hwa, hwu⟩
        · intro e he u' hu'
          rcases h2 e he u' hu' with ⟨w, hw, hwu, hwrm⟩
          have hwne : w.sid ≠ sid := by
            intro hws
            have hwc : w = c := sid_unique hnd hw hc_mem (hws.trans hc_sid.symm)
            rw [hwc] at hwrm
            have := hnp c hc_mem hcfalse (Room.project e.1) hwrm
            exact Bool.noConfusion this
          exact ⟨w, hmem_sub w hw hwne, hwu, hwrm⟩

/-- Invariant preservation for a single operation. -/
theorem applyOp_pres (r : Registry) (op : RegOp)
    (hwf : regWF r) (hinv : presenceInv r) :
    regWF (applyOp r op) ∧ presenceInv (applyOp r op) := by
  cases op with
  | join sid pid => exact joinProjectOp_pres r sid pid hwf hinv
  | leave sid pid => exact leaveProjectOp_pres r sid pid hwf hinv
  | disconnect sid => exact disconnectOp_pres r sid hwf hinv

/-- C5: starting from any well-formed registry state satisfying the Presence
Registry invariant, every sequence of join_project / leave_project /
disconnect operations preserves the invariant (and well-formedness), hence
the invariant holds after each operation of any such sequence: every socket
id indexed under a user belongs to a live authenticated socket with that user
id, and every recorded room member has a live socket with that project room
joined. -/
theorem claim_C5 (r : Registry) (ops : List RegOp)
    (hwf : regWF r) (hinv : presenceInv r) :
    presenceInv (applyOps r ops) ∧ regWF (applyOps r ops) := by
  induction ops generalizing r with
  | nil => exact ⟨hinv, hwf⟩
  | cons op ops ih =>
    rcases applyOp_pres r op hwf hinv with ⟨hwf', hinv'⟩
    exact ih (applyOp r op) hwf' hinv'

/-- Witness for C5: a concrete two-socket state (one authenticated and
indexed, one unauthenticated) run through a join, a room switch, a leave and
a disconnect. -/
theorem claim_C5_witness :
    (regWF ⟨[⟨"A", true, "u1", "member", []⟩, ⟨"B", false, "", "member", []⟩],
        [], [("u1", ["A"])]⟩ ∧
     presenceInv ⟨[⟨"A", true, "u1", "member", []⟩, ⟨"B", false, "", "member", []⟩],
        [], [("u1", ["A"])]⟩) ∧
    (presenceInv (applyOps
        ⟨[⟨"A", true, "u1", "member", []⟩, ⟨"B", false, "", "member", []⟩],
          [], [("u1", ["A"])]⟩
        [.join "A" "p1", .join "A" "p2", .leave "A" "p2", .disconnect "A"]) ∧
     regWF (applyOps
        ⟨[⟨"A", true, "u1", "member", []⟩, ⟨"B", false, "", "member", []⟩],
          [], [("u1", ["A"])]⟩
        [.join "A" "p1", .join "A" "p2", .leave "A" "p2", .disconnect "A"])) :=
  ⟨⟨by decide, by decide⟩,
   claim_C5 ⟨[⟨"A", true, "u1", "member", []⟩, ⟨"B", false, "", "member", []⟩],
        [], [("u1", ["A"])]⟩
      [.join "A" "p1", .join "A" "p2", .leave "A" "p2", .disconnect "A"]
      (by decide) (by decide)⟩

/-- C8: on teardown the address's stored record has its general counter
decremented by one when positive and left at zero otherwise (never negative),
and its expired-token counter likewise when the connection was an
expired-token attempt; and the disconnect handler removes the authenticated
connection from the live set, removes its socket id from the user-to-sockets
index and its user id from every room's member set (its team scopes leave the
registry with the connection itself). -/
theorem claim_C8 (a : Attempts) (wasExpired : Bool)
    (r : Registry) (sid : String) (c : Socket)
    (hwf : regWF r) (hinv : presenceInv r)
    (hfind : r.conns.find? (fun d => d.sid = sid) = some c)
    (hcauth : c.authenticated = true) :
    (∃ a2, disconnectAttempts (some a) wasExpired = some a2 ∧
      (a.count > 0 → a2.count = a.count - 1) ∧
      (a.count ≤ 0 → a2.count = a.count) ∧
      (a.count ≥ 0 → a2.count ≥ 0) ∧
      (wasExpired = true → a.expiredTokenAttempts > 0 →
        a2.expiredTokenAttempts = a.expiredTokenAttempts - 1) ∧
      (a.expiredTokenAttempts ≥ 0 → a2.expiredTokenAttempts ≥ 0)) ∧
    disconnectAttempts none wasExpired = none ∧
    (∀ e ∈ (disconnectOp r sid).userSockets, c.sid ∉ e.2) ∧
    (∀ e ∈ (disconnectOp r sid).activeRooms, c.userId ∉ e.2) ∧
    (∀ d ∈ (disconnectOp r sid).conns, d.sid ≠ c.sid) := by
  obtain ⟨hnd, hui, hnp, harnd, husnd⟩ := hwf
  obtain ⟨h1, h2⟩ := hinv
  have hc_mem : c ∈ r.conns := List.mem_of_find?_eq_some hfind
  have hc_sid : c.sid = sid := by simpa using List.find?_some hfind
  have hcuid : c.userId ≠ "" := hui c hc_mem hcauth
  have hop : disconnectOp r sid =
      { conns := r.conns.filter (fun d => d.sid ≠ sid)
        activeRooms := roomsDeleteUser r.activeRooms c.userId
        userSockets := userSocketsRemove r.userSockets c.userId sid } := by
    unfold disconnectOp
    simp only [hfind]
    rw [if_pos ⟨hcauth, hcuid⟩]
  refine ⟨?_, rfl, ?_, ?_, ?_⟩
  · refine ⟨_, rfl, ?_, ?_, ?_, ?_, ?_⟩ <;>
      (intros
       split_ifs <;> (try simp only [] at *) <;> (try omega) <;> tauto)
  · intro e he hs
    rw [hop] at he
    rcases userSocketsRemove_sound husnd e he c.sid hs with ⟨⟨e₀, he₀, hk₀, hs₀⟩, hksid⟩
    rcases h1 e₀ he₀ c.sid hs₀ with ⟨w, hw, hwsid, hwa, hwu⟩
    have hwc : w = c := sid_unique hnd hw hc_mem hwsid
    have hkey : e.1 = c.userId := by
      rw [← hk₀, ← hwu, hwc]
    exact hksid hkey hc_sid
  · intro e he hu
    rw [hop] at he
    rcases roomsDeleteUser_sound harnd e he c.userId hu with ⟨-, hne⟩
    exact hne rfl
  · intro d hd
    rw [hop] at hd
    have := (List.mem_filter.1 hd).2
    rw [hc_sid]
    simpa using this

/-- Witness for C8 at a concrete record and single-socket registry. -/
theorem claim_C8_witness :
    (regWF ⟨[⟨"A", true, "u1", "member", [Room.project "p1", Room.team "5"]⟩],
        [("p1", ["u1"])], [("u1", ["A"])]⟩ ∧
     presenceInv ⟨[⟨"A", true, "u1", "member", [Room.project "p1", Room.team "5"]⟩],
        [("p1", ["u1"])], [("u1", ["A"])]⟩ ∧
     ([⟨"A", true, "u1", "member", [Room.project "p1", Room.team "5"]⟩] :
        List Socket).find? (fun d => d.sid = "A")
       = some ⟨"A", true, "u1", "member", [Room.project "p1", Room.team "5"]⟩) ∧
    (∀ e ∈ (disconnectOp
        ⟨[⟨"A", true, "u1", "member", [Room.project "p1", Room.team "5"]⟩],
          [("p1", ["u1"])], [("u1", ["A"])]⟩ "A").userSockets,
      ("A" : String) ∉ e.2) ∧
    (∀ e ∈ (disconnectOp
        ⟨[⟨"A", true, "u1", "member", [Room.project "p1", Room.team "5"]⟩],
          [("p1", ["u1"])], [("u1", ["A"])]⟩ "A").activeRooms,
      ("u1" : String) ∉ e.2) :=
  ⟨⟨by decide, by decide, by decide⟩,
   (claim_C8 ⟨3, 50, false, 2⟩ true
      ⟨[⟨"A", true, "u1", "member", [Room.project "p1", Room.team "5"]⟩],
        [("p1", ["u1"])], [("u1", ["A"])]⟩ "A"
      ⟨"A", true, "u1", "member", [Room.project "p1", Room.team "5"]⟩
      (by decide) (by decide) (by decide) (by decide)).2.2.1,
   (claim_C8 ⟨3, 50, false, 2⟩ true
      ⟨[⟨"A", true, "u1", "member", [Room.project "p1", Room.team "5"]⟩],
        [("p1", ["u1"])], [("u1", ["A"])]⟩ "A"
      ⟨"A", true, "u1", "member", [Room.project "p1", Room.team "5"]⟩
      (by decide) (by decide) (by decide) (by decide)).2.2.2.1⟩

end TeamApp
